import Mathlib

/-!
Verification development for the `k8s` watch/cache engine
(`src/lib/k8s/watcher.go` of bozzzzo/teleproxy).

The Go code is shallowly embedded: the `Watcher` struct, its registration,
lifecycle, query and update methods are translated into pure Lean functions
over an explicit state.  The list-then-watch reconciliation loop and the
`Resource`/`Client` helpers live outside the provided sources (they belong to
an external cluster-client library resp. a missing file of the repository);
those parts are modelled from the specification and marked as such in their
doc comments.  Listener invocations are recorded explicitly (as a `Bool` for a
single event, and as a log of watch keys for `Start`), since the Go listeners
are opaque callbacks.
-/

namespace Teleproxy

/-- The `schema.GroupVersionResource` triple: fully qualified collection identifier. -/
structure GroupVersionResource where
  Group : String
  Version : String
  Resource : String
deriving DecidableEq, Repr

/-- Modelled from the spec: the Resource-Type Resolver's output — "group,
version, plural name, Kind string, namespaced flag" (§4.1).  The Go type
lives in a file absent from `src/`. -/
structure ResourceInfo where
  Group : String
  Version : String
  Name : String
  Kind : String
  Namespaced : Bool
deriving DecidableEq, Repr

/-- The `watchKey` struct from watcher.go: a GroupVersionResource together with a
namespace, the Watch Registry's primary map key. -/
structure watchKey where
  gvr : GroupVersionResource
  Namespace : String
deriving DecidableEq, Repr

/-- Modelled from the spec: a `Resource` is "a self-describing, schema-less
mapping from field name to value" with derived accessors Kind, Name,
Namespace and an opaque per-object version token (§3).  The Go type is a
`map[string]interface{}` defined in a file absent from `src/`; we keep the
claim-relevant accessors as fields and the rest of the payload as an
uninterpreted field list. -/
structure Resource where
  Kind : String
  Name : String
  Namespace : String
  ResourceVersion : String
  fields : List (String × String)
deriving DecidableEq, Repr

/-- The empty `Resource{}` (a `nil` map: every accessor yields `""`). -/
def Resource.empty : Resource := ⟨"", "", "", "", []⟩

/-- Modelled from the spec: the "composite qualified name (name plus
namespace, namespace defaulted to "default" for namespaced kinds)" (§3);
the Go `QName` accessor is in a file absent from `src/`. -/
def Resource.QName (r : Resource) : String :=
  r.Name ++ "." ++ (if r.Namespace = "" then "default" else r.Namespace)

/-- Object identity: "(namespace, name)" (§6); the key under which a
`cache.Store` files an object. -/
def identityKey (r : Resource) : String := r.Namespace ++ "/" ++ r.Name

/-- Modelled from the spec: the Resource-Type Resolver and canonicalization
helpers of the `Client` (absent from `src/`), kept opaque as function
fields.  `ResolveResourceType` is used at registration, `resolve` after
`Canonicalize` at query/update time, exactly as watcher.go calls them. -/
structure Client where
  ResolveResourceType : String → ResourceInfo
  resolve : String → ResourceInfo
  Canonicalize : String → String

/-- The GroupVersionResource that `List`/`UpdateStatus` build from the
resolver's answer (watcher.go lines 177–183 and 203–209). -/
def Client.gvrFor (c : Client) (kind : String) : GroupVersionResource :=
  let ri := c.resolve (c.Canonicalize kind)
  ⟨ri.Group, ri.Version, ri.Name⟩

/-! ### The keyed Local Store

One `cache.Store` per watch: a keyed table from object identity to the last
observed `Resource`.  (The iteration order of `store.List()` is unspecified
in the original; the association-list order stands in for it.) -/

def storeGet (store : List (String × Resource)) (k : String) : Option Resource :=
  (store.find? (fun kv => kv.1 == k)).map (·.2)

def storePut (store : List (String × Resource)) (k : String) (r : Resource) :
    List (String × Resource) :=
  (k, r) :: store.filter (fun kv => kv.1 != k)

def storeDel (store : List (String × Resource)) (k : String) :
    List (String × Resource) :=
  store.filter (fun kv => kv.1 != k)

/-- The per-watch state: the `watch` struct of watcher.go.  The
`dynamic.ResourceInterface` the informer lists/watches through is reduced to
the namespace it is bound to (`none` = the bare cluster-wide client); the
informer's store and HasSynced flag are explicit.  The `invoke` and `runner`
closures become functions over this state below. -/
structure watch where
  watchedScope : Option String
  store : List (String × Resource)
  hasSynced : Bool
deriving DecidableEq, Repr

/-- The registry: the `Watcher` struct of watcher.go (mutex, stop channel and
wait group are concurrency plumbing with no pure-state content). -/
structure Watcher where
  client : Client
  watches : List (watchKey × watch)
  started : Bool

def lookupWatch (ws : List (watchKey × watch)) (k : watchKey) : Option watch :=
  (ws.find? (fun kv => decide (kv.1 = k))).map (·.2)

def watchesPut (ws : List (watchKey × watch)) (k : watchKey) (e : watch) :
    List (watchKey × watch) :=
  (k, e) :: ws.filter (fun kv => decide (kv.1 ≠ k))

/-- watcher.go lines 91–94: the informer's list/watch source.  `watched`
starts as the bare cluster-wide `resource`; the code then narrows it with
`resource.Namespace(namespace)` precisely when `namespace == ""`. -/
def watchedScopeOf (ns : String) : Option String :=
  if ns = "" then some ns else none

/-- Modelled from the spec: which server objects a scoped list/watch source
yields.  "Namespace-empty means all namespaces" (§3), so a source bound to
namespace `""` — like the bare cluster-wide source — is unfiltered; a source
bound to a non-empty namespace yields only that namespace's objects. -/
def scopeFilter (scope : Option String) (r : Resource) : Bool :=
  match scope with
  | none => true
  | some ns => ns == "" || r.Namespace == ns

/-- Translation of `WatchInternal` (watcher.go lines 84–146): registers a new watch under
`watchKey{gvr, namespace}` whose informer source is `watchedScopeOf ns`, with
an empty store and HasSynced still false. -/
def Watcher.WatchInternal (w : Watcher) (gvr : GroupVersionResource) (ns : String) :
    Watcher :=
  { w with watches := watchesPut w.watches ⟨gvr, ns⟩ ⟨watchedScopeOf ns, [], false⟩ }

/-- Translation of `WatchNamespace` (watcher.go lines 72–82). -/
def Watcher.WatchNamespace (w : Watcher) (ns resources : String) : Watcher :=
  let ri := w.client.ResolveResourceType resources
  w.WatchInternal ⟨ri.Group, ri.Version, ri.Name⟩ ns

/-- Translation of `Watch` (watcher.go lines 68–70). -/
def Watcher.Watch (w : Watcher) (resources : String) : Watcher :=
  w.WatchNamespace "" resources

/-- The `invoke` closure (watcher.go lines 97–103): under the registry lock,
call the listener only if `hasSynced()`.  Returns whether the listener was
invoked. -/
def invoke (e : watch) : Bool := e.hasSynced

/-- Modelled from the spec: Reflector step 1 — "Perform a full list of the
collection (optionally namespace-scoped).  Populate the Store with every
returned object, keyed by identity" (§4.2); afterwards "the Reflector's
readiness predicate becomes true" (step 4).  `remote` is the server's
collection contents. -/
def initialList (e : watch) (remote : List Resource) : watch :=
  { e with
    store := (remote.filter (scopeFilter e.watchedScope)).map
      (fun r => (identityKey r, r)),
    hasSynced := true }

inductive EventKind
  | added
  | modified
  | deleted
deriving DecidableEq, Repr

structure Event where
  kind : EventKind
  obj : Resource
deriving DecidableEq, Repr

/-- Modelled from the spec: §4.2 step 3, the informer's event dispatch
(delegated by watcher.go to an external cluster-client library): `added`
inserts into the Store, `deleted` removes, `modified` compares the incoming
version token with the one stored for that key and leaves the Store alone
when they are equal.  The handler bodies are translated from watcher.go
lines 109–127: `AddFunc`/`DeleteFunc` call `invoke`; `UpdateFunc` calls
`invoke` only when the old and new resource versions differ.  Returns the
new per-watch state and whether the listener was invoked. -/
def processEvent (e : watch) (ev : Event) : watch × Bool :=
  match ev.kind with
  | .added =>
    ({ e with store := storePut e.store (identityKey ev.obj) ev.obj }, invoke e)
  | .deleted =>
    ({ e with store := storeDel e.store (identityKey ev.obj) }, invoke e)
  | .modified =>
    match storeGet e.store (identityKey ev.obj) with
    | some oldObj =>
      if oldObj.ResourceVersion ≠ ev.obj.ResourceVersion then
        ({ e with store := storePut e.store (identityKey ev.obj) ev.obj }, invoke e)
      else
        (e, false)
    | none =>
      ({ e with store := storePut e.store (identityKey ev.obj) ev.obj }, invoke e)

/-- Translation of `Start` (watcher.go lines 148–174): a second call returns at once; the
first call launches every runner, blocks on `WaitForCacheSync` until every
informer's initial listing is done (modelled by `initialList` against the
server state `remote`), then calls every watch's `invoke`.  Returns the new
state together with the log of watch keys whose listener was invoked. -/
def Watcher.Start (w : Watcher) (remote : watchKey → List Resource) :
    Watcher × List watchKey :=
  if w.started then (w, [])
  else
    let synced := w.watches.map (fun ke => (ke.1, initialList ke.2 (remote ke.1)))
    ({ w with started := true, watches := synced },
      (synced.filter (fun ke => invoke ke.2)).map (·.1))

/-- Translation of `ListInternal` (watcher.go lines 188–200): the stored objects of the
watch registered under `watchKey{gvr, namespace}`, or `nil` if absent. -/
def Watcher.ListInternal (w : Watcher) (gvr : GroupVersionResource) (ns : String) :
    List Resource :=
  match lookupWatch w.watches ⟨gvr, ns⟩ with
  | some e => e.store.map (·.2)
  | none => []

/-- Translation of `List` (watcher.go lines 176–186): resolve the kind and list under the
empty namespace. -/
def Watcher.List (w : Watcher) (kind : String) : List Resource :=
  w.ListInternal (w.client.gvrFor kind) ""

/-- The ASCII-level simple case folding of a string, as a character list. -/
def caseFold (s : String) : List Char := s.data.map Char.toLower

/-- Go `strings.EqualFold`, restricted to ASCII simple case folding. -/
def EqualFold (s t : String) : Bool := caseFold s == caseFold t

/-- Translation of `Get` (watcher.go lines 229–237): first case-insensitive qualified-name
match in `List kind`, else the empty Resource. -/
def Watcher.Get (w : Watcher) (kind qname : String) : Resource :=
  match (w.List kind).find? (fun res => EqualFold res.QName qname) with
  | some res => res
  | none => Resource.empty

/-- Translation of `Exists` (watcher.go lines 239–241). -/
def Watcher.Exists (w : Watcher) (kind qname : String) : Bool :=
  (w.Get kind qname).Name != ""

inductive UpdateError
  | noSuchWatch (gvr : GroupVersionResource)
  | remoteRejected (msg : String)
deriving DecidableEq, Repr

/-- Translation of `UpdateStatus` (watcher.go lines 202–227): resolve the resource's kind,
look up the watch under (gvr, resource's own namespace); fail with the
`no watch` error when absent; otherwise issue the remote status update
(`remote`, the server's answer, abstracts the network call); on error return
it with the store untouched, on success write the server-returned object
into the store and return it. -/
def Watcher.UpdateStatus (w : Watcher) (r : Resource)
    (remote : Resource → Except String Resource) :
    Watcher × Except UpdateError Resource :=
  let gvr := w.client.gvrFor r.Kind
  let key : watchKey := ⟨gvr, r.Namespace⟩
  match lookupWatch w.watches key with
  | none => (w, .error (.noSuchWatch gvr))
  | some e =>
    match remote r with
    | .error err => (w, .error (.remoteRejected err))
    | .ok result =>
      let updated : watch := { e with store := storePut e.store (identityKey result) result }
      ({ w with watches := watchesPut w.watches key updated }, .ok result)

/-! ### The aliasing model for the query results

watcher.go line 194 converts each stored object with `UnstructuredContent()`,
which hands back the object's underlying content map itself (a reference into
the store's object), not a copy.  To reason about mutation of returned
values we model object contents at the pointer level: a heap of content
maps, a store holding pointers, and in-place field mutation. -/

abbrev Ptr := Nat

abbrev Heap := List (List (String × String))

def heapGet (h : Heap) (p : Ptr) : List (String × String) := (h.get? p).getD []

def setField (fs : List (String × String)) (k v : String) : List (String × String) :=
  (k, v) :: fs.filter (fun kv => kv.1 != k)

/-- In-place mutation of the object `p` points to: what a caller does when it
writes a field of a `Resource` (a Go map, a reference type) it was handed. -/
def heapSet (h : Heap) (p : Ptr) (k v : String) : Heap :=
  h.set p (setField (heapGet h p) k v)

/-- The `UnstructuredContent()` call of watcher.go line 194: returns the
stored object's underlying content map — the same reference, no copy. -/
def unstructuredContent (p : Ptr) : Ptr := p

/-- The result of `ListInternal` at the pointer level (watcher.go lines 191–196):
one `UnstructuredContent()` per stored object. -/
def listInternalPtrs (store : List (String × Ptr)) : List Ptr :=
  store.map (fun kv => unstructuredContent kv.2)

/-- The contents of the Local Store as read through the heap. -/
def storeContents (h : Heap) (store : List (String × Ptr)) :
    List (List (String × String)) :=
  store.map (fun kv => heapGet h kv.2)

/-! ### Helper lemmas -/

theorem storeGet_storePut (s : List (String × Resource)) (k : String) (r : Resource) :
    storeGet (storePut s k r) k = some r := by
  simp [storeGet, storePut]

theorem lookupWatch_watchesPut (ws : List (watchKey × watch)) (k : watchKey) (e : watch) :
    lookupWatch (watchesPut ws k e) k = some e := by
  simp [lookupWatch, watchesPut]

theorem find?_congr {α : Type} (l : List α) (p q : α → Bool) (h : ∀ a, p a = q a) :
    l.find? p = l.find? q := by
  induction l with
  | nil => rfl
  | cons x xs ih =>
    rw [List.find?_cons, List.find?_cons, h x, ih]

theorem start_invoke_log (l : List (watchKey × watch)) (remote : watchKey → List Resource) :
    ((l.map (fun ke => (ke.1, initialList ke.2 (remote ke.1)))).filter
      (fun ke => invoke ke.2)).map (·.1) = l.map (·.1) := by
  induction l with
  | nil => rfl
  | cons x xs ih =>
    have hx : invoke (initialList x.2 (remote x.1)) = true := rfl
    simp only [List.map_cons, List.filter_cons, hx, ite_true, ih]

/-! ### Concrete instances used by witnesses -/

def testClient : Client :=
  { ResolveResourceType := fun _ => ⟨"", "v1", "pods", "Pod", true⟩,
    resolve := fun _ => ⟨"", "v1", "pods", "Pod", true⟩,
    Canonicalize := fun s => s.toLower }

def podsGvr : GroupVersionResource := ⟨"", "v1", "pods"⟩

def wEmpty : Watcher := ⟨testClient, [], false⟩

def objB : Resource := ⟨"Pod", "x", "ns-b", "7", []⟩

def objB8 : Resource := ⟨"Pod", "x", "ns-b", "8", []⟩

def eSyncedB : watch := ⟨none, [("ns-b/x", objB)], true⟩

def foo1 : Resource := ⟨"Pod", "foo", "default", "1", []⟩

def foo2 : Resource := ⟨"Pod", "foo", "default", "2", [("status", "ok")]⟩

def wFoo : Watcher :=
  ⟨testClient, [(⟨podsGvr, "default"⟩, ⟨none, [("default/foo", foo1)], true⟩)], true⟩

def wPods : Watcher :=
  ⟨testClient, [(⟨podsGvr, ""⟩, ⟨some "", [("default/Foo", ⟨"Pod", "Foo", "default", "1", []⟩)], true⟩)], true⟩

def wUnstarted : Watcher := ⟨testClient, [(⟨podsGvr, ""⟩, ⟨some "", [], false⟩)], false⟩

def wFooUpdated : watch := ⟨none, [("default/foo", foo2)], true⟩

/-! ### Claims -/

/-- C1: the claim that a watch registered for namespace "ns-a" never returns
an object of namespace "ns-b" is violated by the code.  watcher.go line 92
narrows the informer's source with `resource.Namespace(namespace)` only when
`namespace == ""` (a no-op), so a registration for "ns-a" keeps the
cluster-wide source: here the server holds a single object living in "ns-b"
and listing the "ns-a" registration returns exactly that object. -/
theorem C1_namespace_scope_violated :
    (((wEmpty.WatchInternal podsGvr "ns-a").Start (fun _ => [objB])).1.ListInternal
        podsGvr "ns-a").map (·.Namespace) = ["ns-b"] := rfl

/-- C2: on a `modified` event for an object whose key is present in the
store, the listener is invoked iff the incoming version token differs from
the stored one; on equal tokens the update is suppressed (state unchanged,
listener not invoked). -/
theorem C2_modified_dedup (e : watch) (obj oldObj : Resource)
    (h : e.hasSynced = true)
    (hs : storeGet e.store (identityKey obj) = some oldObj) :
    ((processEvent e ⟨.modified, obj⟩).2 = true ↔
      oldObj.ResourceVersion ≠ obj.ResourceVersion) ∧
    (oldObj.ResourceVersion = obj.ResourceVersion →
      (processEvent e ⟨.modified, obj⟩).1 = e) := by
  by_cases hrv : oldObj.ResourceVersion = obj.ResourceVersion
  · simp [processEvent, hs, hrv]
  · simp [processEvent, hs, hrv, invoke, h]

theorem C2_modified_dedup_witness :
    eSyncedB.hasSynced = true ∧
    storeGet eSyncedB.store (identityKey objB8) = some objB ∧
    (((processEvent eSyncedB ⟨.modified, objB8⟩).2 = true ↔
        objB.ResourceVersion ≠ objB8.ResourceVersion) ∧
      (objB.ResourceVersion = objB8.ResourceVersion →
        (processEvent eSyncedB ⟨.modified, objB8⟩).1 = eSyncedB)) :=
  ⟨rfl, rfl, C2_modified_dedup eSyncedB objB8 objB rfl rfl⟩

/-- C3: the first `Start` passes the readiness barrier (every registered
watch ends up synced) and then invokes every registered watch's change
callback exactly once — the invocation log equals the list of registered
keys — even when every remote collection is empty. -/
theorem C3_start_barrier_and_initial_invoke (w : Watcher)
    (remote : watchKey → List Resource) (h : w.started = false) :
    (w.Start remote).2 = w.watches.map (·.1) ∧
    ∀ ke ∈ (w.Start remote).1.watches, ke.2.hasSynced = true := by
  refine ⟨?_, ?_⟩
  · have := start_invoke_log w.watches remote
    simpa [Watcher.Start, h] using this
  · intro ke hke
    simp only [Watcher.Start, h, Bool.false_eq_true, if_false, List.mem_map] at hke
    obtain ⟨a, _, rfl⟩ := hke
    rfl

theorem C3_start_witness :
    wUnstarted.started = false ∧
    ((wUnstarted.Start fun _ => []).2 = wUnstarted.watches.map (·.1) ∧
      ∀ ke ∈ (wUnstarted.Start fun _ => []).1.watches, ke.2.hasSynced = true) :=
  ⟨rfl, C3_start_barrier_and_initial_invoke wUnstarted (fun _ => []) rfl⟩

/-- C4: `UpdateStatus` returns the no-such-watch error when (kind's gvr,
resource's own namespace) was never registered; when the remote update fails
the state is unchanged and the error is returned; when it succeeds the
server-returned object is written into that watch's store and returned. -/
theorem C4_updateStatus_spec (w : Watcher) (r : Resource)
    (remote : Resource → Except String Resource) :
    (lookupWatch w.watches ⟨w.client.gvrFor r.Kind, r.Namespace⟩ = none →
      w.UpdateStatus r remote = (w, .error (.noSuchWatch (w.client.gvrFor r.Kind)))) ∧
    (∀ e err, lookupWatch w.watches ⟨w.client.gvrFor r.Kind, r.Namespace⟩ = some e →
      remote r = .error err →
      w.UpdateStatus r remote = (w, .error (.remoteRejected err))) ∧
    (∀ e result, lookupWatch w.watches ⟨w.client.gvrFor r.Kind, r.Namespace⟩ = some e →
      remote r = .ok result →
      (w.UpdateStatus r remote).2 = .ok result ∧
      lookupWatch (w.UpdateStatus r remote).1.watches ⟨w.client.gvrFor r.Kind, r.Namespace⟩ =
        some ({ e with store := storePut e.store (identityKey result) result })) := by
  refine ⟨?_, ?_, ?_⟩
  · intro hl
    simp [Watcher.UpdateStatus, hl]
  · intro e err hl hr
    simp [Watcher.UpdateStatus, hl, hr]
  · intro e result hl hr
    refine ⟨?_, ?_⟩
    · simp [Watcher.UpdateStatus, hl, hr]
    · simp [Watcher.UpdateStatus, hl, hr, lookupWatch_watchesPut]

theorem C4_updateStatus_witness :
    lookupWatch wEmpty.watches ⟨wEmpty.client.gvrFor foo1.Kind, foo1.Namespace⟩ = none ∧
    wEmpty.UpdateStatus foo1 (fun _ => .ok foo2) =
      (wEmpty, .error (.noSuchWatch (wEmpty.client.gvrFor foo1.Kind))) :=
  ⟨rfl, (C4_updateStatus_spec wEmpty foo1 (fun _ => .ok foo2)).1 rfl⟩

/-- C5: a successful `UpdateStatus` writes the server-returned object into
the store, so a subsequent `modified` event for the same object carrying the
same version token is suppressed: the listener is not invoked. -/
theorem C5_update_echo_suppressed (w : Watcher) (r echo result : Resource)
    (remote : Resource → Except String Resource) (e' : watch)
    (hok : (w.UpdateStatus r remote).2 = Except.ok result)
    (he : lookupWatch (w.UpdateStatus r remote).1.watches
        ⟨w.client.gvrFor r.Kind, r.Namespace⟩ = some e')
    (hkey : identityKey echo = identityKey result)
    (hrv : echo.ResourceVersion = result.ResourceVersion) :
    (processEvent e' ⟨.modified, echo⟩).2 = false := by
  rcases hl : lookupWatch w.watches ⟨w.client.gvrFor r.Kind, r.Namespace⟩ with _ | e
  · simp [Watcher.UpdateStatus, hl] at hok
  · rcases hr : remote r with err | res
    · simp [Watcher.UpdateStatus, hl, hr] at hok
    · have hres : res = result := by
        simpa [Watcher.UpdateStatus, hl, hr] using hok
      subst hres
      have he2 : ({ e with store := storePut e.store (identityKey res) res } : watch) = e' := by
        simpa [Watcher.UpdateStatus, hl, hr, lookupWatch_watchesPut] using he
      subst he2
      simp [processEvent, hkey, storeGet_storePut, hrv]

theorem C5_update_echo_witness :
    (wFoo.UpdateStatus foo1 (fun _ => .ok foo2)).2 = Except.ok foo2 ∧
    lookupWatch (wFoo.UpdateStatus foo1 (fun _ => .ok foo2)).1.watches
        ⟨wFoo.client.gvrFor foo1.Kind, foo1.Namespace⟩ = some wFooUpdated ∧
    (processEvent wFooUpdated ⟨.modified, foo2⟩).2 = false :=
  ⟨rfl, rfl,
    C5_update_echo_suppressed wFoo foo1 foo2 foo2 (fun _ => .ok foo2) wFooUpdated
      rfl rfl rfl rfl⟩

/-- C6: `List` on a kind that was never registered (under any namespace, so
in particular under `""`, the key `List` consults) returns the empty
sequence; the function is total, so no error or failure is possible. -/
theorem C6_list_unregistered_empty (w : Watcher) (kind : String)
    (h : ∀ ns, lookupWatch w.watches ⟨w.client.gvrFor kind, ns⟩ = none) :
    w.List kind = [] := by
  have h0 := h ""
  simp [Watcher.List, Watcher.ListInternal, h0]

theorem C6_list_unregistered_witness :
    (∀ ns, lookupWatch wEmpty.watches ⟨wEmpty.client.gvrFor "Pod", ns⟩ = none) ∧
    wEmpty.List "Pod" = [] :=
  ⟨fun _ => rfl, C6_list_unregistered_empty wEmpty "Pod" (fun _ => rfl)⟩

/-- C7: `Get` scans `List kind` for a case-insensitive qualified-name match:
qualified names equal up to case folding give the same result, an absent
name gives the empty Resource, and in particular `Get kind "Foo.default"`
and `Get kind "foo.DEFAULT"` coincide. -/
theorem C7_get_case_insensitive (w : Watcher) (kind q1 q2 : String)
    (h : caseFold q1 = caseFold q2) :
    w.Get kind q1 = w.Get kind q2 ∧
    ((∀ r ∈ w.List kind, EqualFold r.QName q1 = false) →
      w.Get kind q1 = Resource.empty) ∧
    w.Get kind "Foo.default" = w.Get kind "foo.DEFAULT" := by
  have key : ∀ (a b : String), caseFold a = caseFold b →
      (w.List kind).find? (fun res => EqualFold res.QName a) =
        (w.List kind).find? (fun res => EqualFold res.QName b) := by
    intro a b hab
    exact find?_congr _ _ _ (fun r => by simp [EqualFold, hab])
  refine ⟨?_, ?_, ?_⟩
  · unfold Watcher.Get
    rw [key q1 q2 h]
  · intro hnone
    have hfind : (w.List kind).find? (fun res => EqualFold res.QName q1) = none := by
      rw [List.find?_eq_none]
      intro x hx
      simp [hnone x hx]
    unfold Watcher.Get
    rw [hfind]
  · unfold Watcher.Get
    rw [key "Foo.default" "foo.DEFAULT" (by decide)]

theorem C7_get_witness :
    caseFold "Foo.default" = caseFold "foo.DEFAULT" ∧
    (wPods.Get "Pod" "Foo.default" = wPods.Get "Pod" "foo.DEFAULT" ∧
      ((∀ r ∈ wPods.List "Pod", EqualFold r.QName "Foo.default" = false) →
        wPods.Get "Pod" "Foo.default" = Resource.empty) ∧
      wPods.Get "Pod" "Foo.default" = wPods.Get "Pod" "foo.DEFAULT") :=
  ⟨by decide, C7_get_case_insensitive wPods "Pod" "Foo.default" "foo.DEFAULT" (by decide)⟩

/-- C8: `Start` is idempotent — any call after the first returns the state
unchanged and invokes no callback. -/
theorem C8_start_idempotent (w : Watcher) (r1 r2 : watchKey → List Resource) :
    ((w.Start r1).1).Start r2 = ((w.Start r1).1, []) := by
  by_cases h : w.started = true
  · simp [Watcher.Start, h]
  · simp [Watcher.Start, h]

/-- C9 counterexample: the claim that mutating a Resource returned by the
query API never changes the Local Store is false — `ListInternal` hands back
the stored objects' content maps themselves (pointer `0` here is both the
returned value and the stored object), so writing a field through the
returned value changes what the store's readers see. -/
theorem C9_copies_counterexample :
    (listInternalPtrs [("default/foo", 0)]).get? 0 = some 0 ∧
    storeContents (heapSet [[("status", "old")]] 0 "status" "new") [("default/foo", 0)] ≠
      storeContents [[("status", "old")]] [("default/foo", 0)] := by
  decide

/-- C9 amended: Resources returned from the query API are not independent
copies but the stored objects' own content maps — `ListInternal` returns,
for every store, exactly the stored content pointers. -/
theorem C9_list_aliases_store (store : List (String × Ptr)) :
    listInternalPtrs store = store.map (·.2) := by
  simp [listInternalPtrs, unstructuredContent]

/-- C10: the listener is never invoked before the watch's initial
synchronization has completed: every event-handler path goes through
`invoke`, which skips the listener whenever `hasSynced` is false. -/
theorem C10_no_invoke_before_sync (e : watch) (ev : Event)
    (h : e.hasSynced = false) :
    (processEvent e ev).2 = false := by
  rcases ev with ⟨kind, obj⟩
  cases kind
  · simp [processEvent, invoke, h]
  · rcases hs : storeGet e.store (identityKey obj) with _ | oldObj
    · simp [processEvent, hs, invoke, h]
    · by_cases hrv : oldObj.ResourceVersion = obj.ResourceVersion
      · simp [processEvent, hs, hrv]
      · simp [processEvent, hs, hrv, invoke, h]
  · simp [processEvent, invoke, h]

theorem C10_no_invoke_before_sync_witness :
    (⟨none, [], false⟩ : watch).hasSynced = false ∧
    (processEvent ⟨none, [], false⟩ ⟨.added, objB⟩).2 = false :=
  ⟨rfl, C10_no_invoke_before_sync ⟨none, [], false⟩ ⟨.added, objB⟩ rfl⟩

end Teleproxy
